import Mathlib

/-!
Shallow embedding of the Game of Life engine (the `Cell` and `Generation`
classes of the repository's main source file) together with proofs of the
specification's claims about it.

Modelling conventions:
- JS numbers used as grid coordinates are modelled as `Int` (neighbor
  offsets such as `x - 1` go negative at the grid edge, exactly as in the
  source); grid dimensions are `Nat`.
- `Math.random() > 0.5` in the `Cell` constructor is modelled by an
  explicit boolean source `rand : Nat → Nat → Bool` giving the draw for
  the cell constructed at grid position `(x, y)`; nothing proved here
  depends on its values.
- The JS statement `this.cells[centerIndex].nextAlive = v` mutates one
  array slot in place; `listModify` performs the same update functionally
  (an out-of-range index leaves the list unchanged; on the populated
  grids the claims quantify over, the index is always in range).
- Constructor options `{ rows, columns }` are `Option Nat` fields for
  the grid-engine claims (which quantify over populated grids); JS
  truthiness of a number option is `false` exactly for an absent field
  or the value `0`. Because JS also accepts negative (truthy) dimension
  values and stores them verbatim, the constructor's dimension
  assignment is additionally modelled over JS numbers as `Option Int`
  (`assignedDim`), wide enough to represent those inputs.
-/

/-- Cell: grid position plus alive state; `nextAlive` is the transient
next-state slot written during a transition (absent until first written
in JS; modelled as a `Bool` field initialised to `false`). -/
structure Cell where
  gridX : Int
  gridY : Int
  alive : Bool
  nextAlive : Bool
deriving DecidableEq, Repr

/-- Generation: grid dimensions plus the row-major cell array. -/
structure Generation where
  columns : Nat
  rows : Nat
  cells : List Cell
deriving DecidableEq, Repr

/-- Constructor options object `{ rows, columns }`: each field may be
absent. -/
structure GenerationOptions where
  rows : Option Nat
  columns : Option Nat

/-- JS truthiness of an optional numeric option: falsy iff absent or 0. -/
def truthy : Option Nat → Bool
  | none => false
  | some n => n != 0

/-- JS truthiness over the wide model in which a dimension option is any
JS number (`Int`): falsy iff absent or 0; negative values are truthy. -/
def truthyInt : Option Int → Bool
  | none => false
  | some n => n != 0

/-- Wide model of the constructor's assignment for one dimension field,
`this.rows = 50; if (rows) this.rows = rows;`, over JS numbers
(`Int`), so that negative truthy inputs are representable. -/
def assignedDim (o : Option Int) : Int :=
  if truthyInt o then o.getD 50 else 50

/-- Generation constructor: `columns = 50; rows = 50; cells = [];`
followed by `if (rows) this.rows = rows; if (columns) this.columns = columns;`. -/
def Generation.ofOptions (options : GenerationOptions) : Generation :=
  { rows := if truthy options.rows then options.rows.getD 50 else 50
    columns := if truthy options.columns then options.columns.getD 50 else 50
    cells := [] }

/-- createGrid: for y in 0..rows-1, for x in 0..columns-1, push
`new Cell(x, y)` (alive seeded by the random draw for that cell). -/
def Generation.createGrid (g : Generation) (rand : Nat → Nat → Bool) : Generation :=
  { g with cells := g.cells ++
      (List.range g.rows).flatMap (fun y =>
        (List.range g.columns).map (fun x =>
          { gridX := (x : Int), gridY := (y : Int), alive := rand x y, nextAlive := false })) }

/-- gridToIndex: `x + y * this.columns`. -/
def Generation.gridToIndex (g : Generation) (x y : Int) : Int :=
  x + y * (g.columns : Int)

/-- isAlive: 0 for out-of-bounds coordinates, else 1/0 from the cell's
`alive` flag at the row-major index. (The `none` branch of the lookup is
unreachable on a populated grid.) -/
def Generation.isAlive (g : Generation) (x y : Int) : Nat :=
  if x < 0 || x ≥ (g.columns : Int) || y < 0 || y ≥ (g.rows : Int) then 0
  else
    match g.cells[(g.gridToIndex x y).toNat]? with
    | some c => if c.alive then 1 else 0
    | none => 0

/-- Sum of `isAlive` over the 8 Moore-neighborhood positions, exactly the
`countAlive` expression in the transition loop (the spec's
`neighborAliveCount(x, y)` operation). -/
def Generation.neighborAliveCount (g : Generation) (x y : Int) : Nat :=
  g.isAlive (x - 1) (y - 1) +
  g.isAlive x (y - 1) +
  g.isAlive (x + 1) (y - 1) +
  g.isAlive (x - 1) y +
  g.isAlive (x + 1) y +
  g.isAlive (x - 1) (y + 1) +
  g.isAlive x (y + 1) +
  g.isAlive (x + 1) (y + 1)

/-- cellAt: the O(1) lookup `cells[gridToIndex(x, y)]`. -/
def Generation.cellAt (g : Generation) (x y : Int) : Option Cell :=
  g.cells[(g.gridToIndex x y).toNat]?

/-- Functional form of the in-place slot update `xs[i] = f xs[i]`:
replace the element at index `i` (if any) by its image under `f`. -/
def listModify (i : Nat) (f : Cell → Cell) : List Cell → List Cell
  | [] => []
  | c :: cs =>
    match i with
    | 0 => f c :: cs
    | Nat.succ j => c :: listModify j f cs

/-- The switch on `countAlive` in the transition loop: 2 keeps the current
alive state, 3 makes the cell alive, anything else makes it dead. -/
def transitionRule (countAlive : Nat) (alive : Bool) : Bool :=
  match countAlive with
  | 2 => alive
  | 3 => true
  | _ => false

/-- One iteration of the transition loop body at `(x, y)`: count the
nearby population, then write the cell's `nextAlive` slot. -/
def Generation.stepCell (g : Generation) (x y : Nat) : Generation :=
  let countAlive := g.neighborAliveCount (x : Int) (y : Int)
  let centerIndex := (g.gridToIndex (x : Int) (y : Int)).toNat
  { g with cells := listModify centerIndex (fun c => { c with nextAlive := transitionRule countAlive c.alive }) g.cells }

/-- Compute phase of `updateNextGenCellsAlive`: the nested loops
`for x in 0..columns-1, for y in 0..rows-1` writing every `nextAlive`. -/
def Generation.computePhase (g : Generation) : Generation :=
  (List.range g.columns).foldl
    (fun gx x => (List.range g.rows).foldl (fun gy y => gy.stepCell x y) gx) g

/-- Commit phase of `updateNextGenCellsAlive`:
`cells.forEach(cell => cell.alive = cell.nextAlive)`. -/
def Generation.commitPhase (g : Generation) : Generation :=
  { g with cells := g.cells.map (fun c => { c with alive := c.nextAlive }) }

/-- updateNextGenCellsAlive: compute every cell's `nextAlive`, then apply
the new state to the cells. -/
def Generation.updateNextGenCellsAlive (g : Generation) : Generation :=
  g.computePhase.commitPhase

/-- next: transition when `cells` is non-empty, else populate the grid. -/
def Generation.next (g : Generation) (rand : Nat → Nat → Bool) : Generation :=
  if g.cells.length ≠ 0 then g.updateNextGenCellsAlive
  else g.createGrid rand

/-- A generation whose cell array has been populated: one slot per grid
coordinate, `cells.length = columns * rows`. -/
def Generation.Populated (g : Generation) : Prop :=
  g.cells.length = g.columns * g.rows

instance (g : Generation) : Decidable g.Populated := by
  unfold Generation.Populated; infer_instance

/-! Basic lemmas about `listModify`. -/

@[simp]
theorem listModify_length (i : Nat) (f : Cell → Cell) (xs : List Cell) :
    (listModify i f xs).length = xs.length := by
  induction xs generalizing i with
  | nil => simp [listModify]
  | cons c cs ih =>
    cases i with
    | zero => simp [listModify]
    | succ j => simp [listModify, ih]

theorem getElem?_listModify_self (i : Nat) (f : Cell → Cell) (xs : List Cell) :
    (listModify i f xs)[i]? = xs[i]?.map f := by
  induction xs generalizing i with
  | nil => simp [listModify]
  | cons c cs ih =>
    cases i with
    | zero => simp [listModify]
    | succ j => simpa [listModify] using ih j

theorem getElem?_listModify_ne (i j : Nat) (f : Cell → Cell) (xs : List Cell)
    (h : j ≠ i) : (listModify i f xs)[j]? = xs[j]? := by
  induction xs generalizing i j with
  | nil => simp [listModify]
  | cons c cs ih =>
    cases i with
    | zero =>
      cases j with
      | zero => exact absurd rfl h
      | succ k => simp [listModify]
    | succ m =>
      cases j with
      | zero => simp [listModify]
      | succ k => simpa [listModify] using ih m k (fun hk => h (by omega))

/-! The row-major index of an in-bounds coordinate pair, and its
injectivity. -/

/-- Row-major index of the pair `p` on a grid with `c` columns, as a `Nat`. -/
def pairIndex (c : Nat) (p : Nat × Nat) : Nat :=
  p.1 + p.2 * c

theorem gridToIndex_toNat (g : Generation) (x y : Nat) :
    (g.gridToIndex (x : Int) (y : Int)).toNat = pairIndex g.columns (x, y) := by
  unfold Generation.gridToIndex pairIndex
  have h : ((x : Int) + (y : Int) * (g.columns : Int)) = ((x + y * g.columns : Nat) : Int) := by
    push_cast; ring
  rw [h, Int.toNat_ofNat]

theorem pairIndex_lt (c r : Nat) (p : Nat × Nat) (h1 : p.1 < c) (h2 : p.2 < r) :
    pairIndex c p < c * r := by
  unfold pairIndex
  calc p.1 + p.2 * c < c + p.2 * c := by omega
  _ = (p.2 + 1) * c := by ring
  _ ≤ r * c := Nat.mul_le_mul_right c (by omega)
  _ = c * r := Nat.mul_comm r c

theorem pairIndex_inj (c : Nat) (p q : Nat × Nat) (hp : p.1 < c) (hq : q.1 < c)
    (h : pairIndex c p = pairIndex c q) : p = q := by
  unfold pairIndex at h
  have h1 : p.1 = q.1 := by
    have hp' : (p.1 + p.2 * c) % c = p.1 := by
      rw [Nat.add_mul_mod_self_right]
      exact Nat.mod_eq_of_lt hp
    have hq' : (q.1 + q.2 * c) % c = q.1 := by
      rw [Nat.add_mul_mod_self_right]
      exact Nat.mod_eq_of_lt hq
    rw [← hp', ← hq', h]
  have h2 : p.2 = q.2 := by
    have hc : 0 < c := by omega
    have : p.2 * c = q.2 * c := by omega
    exact Nat.eq_of_mul_eq_mul_right hc this
  exact Prod.ext h1 h2

/-! Frame and write lemmas for `stepCell`. -/

@[simp]
theorem stepCell_columns (g : Generation) (x y : Nat) :
    (g.stepCell x y).columns = g.columns := rfl

@[simp]
theorem stepCell_rows (g : Generation) (x y : Nat) :
    (g.stepCell x y).rows = g.rows := rfl

@[simp]
theorem stepCell_length (g : Generation) (x y : Nat) :
    (g.stepCell x y).cells.length = g.cells.length := by
  simp [Generation.stepCell]

theorem stepCell_getElem? (g : Generation) (x y : Nat) (j : Nat) :
    (g.stepCell x y).cells[j]? =
      if j = pairIndex g.columns (x, y) then
        g.cells[j]?.map
          (fun c => { c with nextAlive := transitionRule (g.neighborAliveCount (x : Int) (y : Int)) c.alive })
      else g.cells[j]? := by
  unfold Generation.stepCell
  simp only [gridToIndex_toNat]
  by_cases h : j = pairIndex g.columns (x, y)
  · subst h; simp [getElem?_listModify_self]
  · simp [h, getElem?_listModify_ne _ _ _ _ h]

theorem stepCell_alive (g : Generation) (x y : Nat) (j : Nat) :
    ((g.stepCell x y).cells[j]?).map Cell.alive = (g.cells[j]?).map Cell.alive := by
  rw [stepCell_getElem?]
  split
  · cases g.cells[j]? <;> rfl
  · rfl

theorem stepCell_coords (g : Generation) (x y : Nat) (j : Nat) :
    ((g.stepCell x y).cells[j]?).map (fun c => (c.gridX, c.gridY)) =
      (g.cells[j]?).map (fun c => (c.gridX, c.gridY)) := by
  rw [stepCell_getElem?]
  split
  · cases g.cells[j]? <;> rfl
  · rfl

/-! Congruence: `isAlive` and `neighborAliveCount` depend only on the grid
dimensions and the per-index alive projection of the cell array. -/

theorem isAlive_congr (g h : Generation) (hc : g.columns = h.columns)
    (hr : g.rows = h.rows)
    (ha : ∀ i : Nat, (g.cells[i]?).map Cell.alive = (h.cells[i]?).map Cell.alive)
    (x y : Int) : g.isAlive x y = h.isAlive x y := by
  unfold Generation.isAlive Generation.gridToIndex
  rw [hc, hr]
  split
  · rfl
  · have hha := ha ((x + y * (h.columns : Int)).toNat)
    cases hg : g.cells[(x + y * (h.columns : Int)).toNat]? <;>
      cases hh : h.cells[(x + y * (h.columns : Int)).toNat]? <;>
      rw [hg, hh] at hha <;> simp_all

theorem neighborAliveCount_congr (g h : Generation) (hc : g.columns = h.columns)
    (hr : g.rows = h.rows)
    (ha : ∀ i : Nat, (g.cells[i]?).map Cell.alive = (h.cells[i]?).map Cell.alive)
    (x y : Int) : g.neighborAliveCount x y = h.neighborAliveCount x y := by
  unfold Generation.neighborAliveCount
  simp only [isAlive_congr g h hc hr ha]

theorem stepCell_count (g : Generation) (a b : Nat) (x y : Int) :
    (g.stepCell a b).neighborAliveCount x y = g.neighborAliveCount x y :=
  neighborAliveCount_congr (g.stepCell a b) g (stepCell_columns g a b)
    (stepCell_rows g a b) (stepCell_alive g a b) x y

/-! The compute phase as a fold of `stepCell` over a worklist of
coordinate pairs, with frame and write characterisation lemmas. -/

/-- Folding the transition-loop body over an explicit worklist of
coordinate pairs. -/
def Generation.foldSteps (g : Generation) (L : List (Nat × Nat)) : Generation :=
  L.foldl (fun gs p => gs.stepCell p.1 p.2) g

@[simp]
theorem foldSteps_nil (g : Generation) : g.foldSteps [] = g := rfl

@[simp]
theorem foldSteps_cons (g : Generation) (p : Nat × Nat) (L : List (Nat × Nat)) :
    g.foldSteps (p :: L) = (g.stepCell p.1 p.2).foldSteps L := rfl

@[simp]
theorem foldSteps_columns (g : Generation) (L : List (Nat × Nat)) :
    (g.foldSteps L).columns = g.columns := by
  induction L generalizing g with
  | nil => rfl
  | cons p L ih => rw [foldSteps_cons, ih]; rfl

@[simp]
theorem foldSteps_rows (g : Generation) (L : List (Nat × Nat)) :
    (g.foldSteps L).rows = g.rows := by
  induction L generalizing g with
  | nil => rfl
  | cons p L ih => rw [foldSteps_cons, ih]; rfl

@[simp]
theorem foldSteps_length (g : Generation) (L : List (Nat × Nat)) :
    (g.foldSteps L).cells.length = g.cells.length := by
  induction L generalizing g with
  | nil => rfl
  | cons p L ih => rw [foldSteps_cons, ih, stepCell_length]

theorem foldSteps_alive (g : Generation) (L : List (Nat × Nat)) (j : Nat) :
    ((g.foldSteps L).cells[j]?).map Cell.alive = (g.cells[j]?).map Cell.alive := by
  induction L generalizing g with
  | nil => rfl
  | cons p L ih => rw [foldSteps_cons, ih, stepCell_alive]

theorem foldSteps_coords (g : Generation) (L : List (Nat × Nat)) (j : Nat) :
    ((g.foldSteps L).cells[j]?).map (fun c => (c.gridX, c.gridY)) =
      (g.cells[j]?).map (fun c => (c.gridX, c.gridY)) := by
  induction L generalizing g with
  | nil => rfl
  | cons p L ih => rw [foldSteps_cons, ih, stepCell_coords]

theorem foldSteps_count (g : Generation) (L : List (Nat × Nat)) (x y : Int) :
    (g.foldSteps L).neighborAliveCount x y = g.neighborAliveCount x y :=
  neighborAliveCount_congr _ _ (foldSteps_columns g L) (foldSteps_rows g L)
    (foldSteps_alive g L) x y

theorem foldSteps_getElem?_notMem (g : Generation) (L : List (Nat × Nat)) (j : Nat)
    (hj : ∀ p ∈ L, pairIndex g.columns p ≠ j) :
    (g.foldSteps L).cells[j]? = g.cells[j]? := by
  induction L generalizing g with
  | nil => rfl
  | cons p L ih =>
    have ih2 := ih (g.stepCell p.1 p.2) (fun q hq => hj q (List.mem_cons_of_mem p hq))
    rw [foldSteps_cons, ih2, stepCell_getElem?]
    exact if_neg (fun hx => hj p (List.mem_cons_self p L) hx.symm)

theorem foldSteps_getElem?_mem (g : Generation) (L : List (Nat × Nat)) (x y : Nat)
    (hmem : (x, y) ∈ L) (hnd : L.Nodup)
    (hin : ∀ p ∈ L, p.1 < g.columns ∧ p.2 < g.rows) :
    (g.foldSteps L).cells[pairIndex g.columns (x, y)]? =
      g.cells[pairIndex g.columns (x, y)]?.map
        (fun c => { c with nextAlive := transitionRule (g.neighborAliveCount (x : Int) (y : Int)) c.alive }) := by
  induction L generalizing g with
  | nil => cases hmem
  | cons p L ih =>
    have hnd2 : L.Nodup := (List.nodup_cons.mp hnd).2
    have hpnot : p ∉ L := (List.nodup_cons.mp hnd).1
    rcases List.mem_cons.mp hmem with hpe | hmem2
    · subst hpe
      rw [foldSteps_cons]
      rw [foldSteps_getElem?_notMem]
      · rw [stepCell_getElem?, if_pos rfl]
      · intro q hq hqi
        have hqin := hin q (List.mem_cons_of_mem _ hq)
        have hxin := hin (x, y) (List.mem_cons_self _ _)
        exact hpnot ((pairIndex_inj g.columns q (x, y) hqin.1 hxin.1 hqi) ▸ hq)
    · have hpin := hin p (List.mem_cons_self _ _)
      have hxin := hin (x, y) (List.mem_cons_of_mem _ hmem2)
      have hne : pairIndex g.columns (x, y) ≠ pairIndex g.columns p := by
        intro hcontra
        exact hpnot ((pairIndex_inj g.columns (x, y) p hxin.1 hpin.1 hcontra) ▸ hmem2)
      have ih2 := ih (g.stepCell p.1 p.2) hmem2 hnd2
        (fun q hq => hin q (List.mem_cons_of_mem _ hq))
      simp only [stepCell_columns] at ih2
      rw [foldSteps_cons, ih2, stepCell_getElem?, if_neg hne, stepCell_count]

/-! The worklist actually traversed by the compute phase: every coordinate
pair, x-major as in the source loops. -/

/-- All coordinate pairs of a `c × r` grid in the order the transition
loops visit them. -/
def gridPairs (c r : Nat) : List (Nat × Nat) :=
  (List.range c).flatMap (fun x => (List.range r).map (fun y => (x, y)))

theorem mem_gridPairs (c r : Nat) (p : Nat × Nat) :
    p ∈ gridPairs c r ↔ p.1 < c ∧ p.2 < r := by
  cases p with
  | mk a b =>
    unfold gridPairs
    simp only [List.mem_flatMap, List.mem_map, List.mem_range, Prod.mk.injEq]
    constructor
    · rintro ⟨x, hx, y, hy, hxy1, hxy2⟩
      exact ⟨hxy1 ▸ hx, hxy2 ▸ hy⟩
    · rintro ⟨ha, hb⟩
      exact ⟨a, ha, b, hb, rfl, rfl⟩

theorem nodup_gridPairs (c r : Nat) : (gridPairs c r).Nodup := by
  unfold gridPairs
  apply List.nodup_flatMap.mpr
  constructor
  · intro x _
    exact (List.nodup_range r).map (fun a b hab => by
      simpa using congrArg Prod.snd hab)
  · refine (List.nodup_range c).imp ?_
    intro a b hab p hpa hpb
    simp only [List.mem_map, List.mem_range] at hpa hpb
    obtain ⟨ya, _, rfl⟩ := hpa
    obtain ⟨yb, _, heq⟩ := hpb
    exact hab (congrArg Prod.fst heq).symm

theorem foldSteps_flatMap (r : Nat) (l : List Nat) (g : Generation) :
    g.foldSteps (l.flatMap (fun x => (List.range r).map (fun y => (x, y)))) =
      l.foldl (fun gx x => (List.range r).foldl (fun gy y => gy.stepCell x y) gx) g := by
  induction l generalizing g with
  | nil => rfl
  | cons a l ih =>
    rw [List.flatMap_cons]
    unfold Generation.foldSteps at *
    rw [List.foldl_append, List.foldl_map, List.foldl_cons]
    exact ih _

theorem computePhase_eq_foldSteps (g : Generation) :
    g.computePhase = g.foldSteps (gridPairs g.columns g.rows) := by
  unfold Generation.computePhase gridPairs
  rw [foldSteps_flatMap]

/-! Characterisation and frame lemmas of the compute phase. -/

theorem computePhase_getElem? (g : Generation) (x y : Nat)
    (hx : x < g.columns) (hy : y < g.rows) :
    g.computePhase.cells[pairIndex g.columns (x, y)]? =
      g.cells[pairIndex g.columns (x, y)]?.map
        (fun c => { c with nextAlive := transitionRule (g.neighborAliveCount (x : Int) (y : Int)) c.alive }) := by
  rw [computePhase_eq_foldSteps]
  exact foldSteps_getElem?_mem g _ x y
    ((mem_gridPairs g.columns g.rows (x, y)).mpr ⟨hx, hy⟩)
    (nodup_gridPairs g.columns g.rows)
    (fun p hp => (mem_gridPairs g.columns g.rows p).mp hp)

@[simp]
theorem computePhase_columns (g : Generation) : g.computePhase.columns = g.columns := by
  rw [computePhase_eq_foldSteps]; exact foldSteps_columns g _

@[simp]
theorem computePhase_rows (g : Generation) : g.computePhase.rows = g.rows := by
  rw [computePhase_eq_foldSteps]; exact foldSteps_rows g _

@[simp]
theorem computePhase_length (g : Generation) :
    g.computePhase.cells.length = g.cells.length := by
  rw [computePhase_eq_foldSteps]; exact foldSteps_length g _

theorem computePhase_alive (g : Generation) (j : Nat) :
    (g.computePhase.cells[j]?).map Cell.alive = (g.cells[j]?).map Cell.alive := by
  rw [computePhase_eq_foldSteps]; exact foldSteps_alive g _ j

theorem computePhase_coords (g : Generation) (j : Nat) :
    (g.computePhase.cells[j]?).map (fun c => (c.gridX, c.gridY)) =
      (g.cells[j]?).map (fun c => (c.gridX, c.gridY)) := by
  rw [computePhase_eq_foldSteps]; exact foldSteps_coords g _ j

/-! Commit-phase lemmas. -/

@[simp]
theorem commitPhase_columns (g : Generation) : g.commitPhase.columns = g.columns := rfl

@[simp]
theorem commitPhase_rows (g : Generation) : g.commitPhase.rows = g.rows := rfl

@[simp]
theorem commitPhase_length (g : Generation) :
    g.commitPhase.cells.length = g.cells.length := by
  simp [Generation.commitPhase]

theorem commitPhase_getElem? (g : Generation) (j : Nat) :
    g.commitPhase.cells[j]? = (g.cells[j]?).map (fun c => { c with alive := c.nextAlive }) := by
  simp [Generation.commitPhase]

/-! Characterisation of a whole transition (`updateNextGenCellsAlive`). -/

@[simp]
theorem update_columns (g : Generation) :
    g.updateNextGenCellsAlive.columns = g.columns := by
  unfold Generation.updateNextGenCellsAlive; simp

@[simp]
theorem update_rows (g : Generation) :
    g.updateNextGenCellsAlive.rows = g.rows := by
  unfold Generation.updateNextGenCellsAlive; simp

@[simp]
theorem update_length (g : Generation) :
    g.updateNextGenCellsAlive.cells.length = g.cells.length := by
  unfold Generation.updateNextGenCellsAlive; simp

theorem update_getElem? (g : Generation) (x y : Nat)
    (hx : x < g.columns) (hy : y < g.rows) :
    g.updateNextGenCellsAlive.cells[pairIndex g.columns (x, y)]? =
      g.cells[pairIndex g.columns (x, y)]?.map
        (fun c =>
          { c with
            alive := transitionRule (g.neighborAliveCount (x : Int) (y : Int)) c.alive
            nextAlive := transitionRule (g.neighborAliveCount (x : Int) (y : Int)) c.alive }) := by
  unfold Generation.updateNextGenCellsAlive
  rw [commitPhase_getElem?, computePhase_getElem? g x y hx hy]
  cases g.cells[pairIndex g.columns (x, y)]? <;> rfl

theorem update_coords (g : Generation) (j : Nat) :
    (g.updateNextGenCellsAlive.cells[j]?).map (fun c => (c.gridX, c.gridY)) =
      (g.cells[j]?).map (fun c => (c.gridX, c.gridY)) := by
  unfold Generation.updateNextGenCellsAlive
  rw [commitPhase_getElem?]
  have h := computePhase_coords g j
  cases hc : g.computePhase.cells[j]? <;> cases hg : g.cells[j]? <;>
    rw [hc, hg] at h <;> simp_all

/-! Characterisation of `createGrid`: the freshly pushed cell list is the
row-major enumeration of the grid. -/

theorem rowMajor_length (c r : Nat) (f : Nat → Nat → Cell) :
    ((List.range r).flatMap (fun b => (List.range c).map (fun a => f a b))).length
      = r * c := by
  induction r with
  | zero => simp
  | succ r ih =>
    rw [List.range_succ, List.flatMap_append, List.length_append, ih]
    simp [Nat.succ_mul]

theorem rowMajor_getElem? (c r x y : Nat) (f : Nat → Nat → Cell)
    (hx : x < c) (hy : y < r) :
    ((List.range r).flatMap (fun b => (List.range c).map (fun a => f a b)))[x + y * c]?
      = some (f x y) := by
  induction r with
  | zero => omega
  | succ r ih =>
    rw [List.range_succ, List.flatMap_append]
    rcases Nat.lt_or_ge y r with h | h
    · rw [List.getElem?_append_left]
      · exact ih h
      · rw [rowMajor_length]
        have h1 : y * c + c ≤ r * c := by
          calc y * c + c = (y + 1) * c := by ring
          _ ≤ r * c := Nat.mul_le_mul_right c (by omega)
        omega
    · have hy2 : y = r := by omega
      subst hy2
      rw [List.getElem?_append_right]
      · rw [rowMajor_length]
        have h2 : x + y * c - y * c = x := by omega
        simp only [List.flatMap_cons, List.flatMap_nil, List.append_nil, h2,
          List.getElem?_map, List.getElem?_range hx, Option.map_some']
      · rw [rowMajor_length]; omega

theorem createGrid_length (g : Generation) (rand : Nat → Nat → Bool) :
    (g.createGrid rand).cells.length = g.cells.length + g.rows * g.columns := by
  unfold Generation.createGrid
  rw [List.length_append, rowMajor_length]

theorem createGrid_getElem?_of_empty (g : Generation) (rand : Nat → Nat → Bool)
    (h0 : g.cells = []) (x y : Nat) (hx : x < g.columns) (hy : y < g.rows) :
    (g.createGrid rand).cells[x + y * g.columns]? =
      some { gridX := (x : Int), gridY := (y : Int), alive := rand x y, nextAlive := false } := by
  unfold Generation.createGrid
  simp only [h0, List.nil_append]
  exact rowMajor_getElem? g.columns g.rows x y _ hx hy

/-! Helper lemmas feeding the claim proofs. -/

theorem transitionRule_eq_ite (n : Nat) (a : Bool) :
    transitionRule n a = if n = 2 then a else if n = 3 then true else false := by
  rcases n with _ | _ | _ | _ | n <;> rfl

theorem isAlive_le_one (g : Generation) (x y : Int) : g.isAlive x y ≤ 1 := by
  unfold Generation.isAlive
  split
  · omega
  · cases hc : g.cells[(g.gridToIndex x y).toNat]? with
    | none => simp
    | some c => by_cases hca : c.alive <;> simp [hca]

theorem isAlive_oob (g : Generation) (x y : Int)
    (h : x < 0 ∨ x ≥ (g.columns : Int) ∨ y < 0 ∨ y ≥ (g.rows : Int)) :
    g.isAlive x y = 0 := by
  unfold Generation.isAlive
  rw [if_pos]
  simp only [Bool.or_eq_true, decide_eq_true_eq]
  tauto

theorem isAlive_eq_one (g : Generation) (x y : Int)
    (hx0 : 0 ≤ x) (hx : x < (g.columns : Int)) (hy0 : 0 ≤ y) (hy : y < (g.rows : Int))
    (hlen : (g.gridToIndex x y).toNat < g.cells.length)
    (halive : ∀ c ∈ g.cells, c.alive = true) : g.isAlive x y = 1 := by
  unfold Generation.isAlive
  rw [if_neg (by simp only [Bool.or_eq_true, decide_eq_true_eq]; omega)]
  have hmem := halive _ (List.getElem_mem hlen)
  rw [List.getElem?_eq_getElem hlen]
  simp [hmem]

theorem isAlive_eq_zero_of_allDead (g : Generation) (x y : Int)
    (hdead : ∀ c ∈ g.cells, c.alive = false) : g.isAlive x y = 0 := by
  unfold Generation.isAlive
  split
  · rfl
  · cases hc : g.cells[(g.gridToIndex x y).toNat]? with
    | none => rfl
    | some c =>
      have := hdead c (List.mem_iff_getElem?.mpr ⟨_, hc⟩)
      simp [this]

theorem neighborAliveCount_le_eight (g : Generation) (x y : Int) :
    g.neighborAliveCount x y ≤ 8 := by
  unfold Generation.neighborAliveCount
  have h1 := isAlive_le_one g (x - 1) (y - 1)
  have h2 := isAlive_le_one g x (y - 1)
  have h3 := isAlive_le_one g (x + 1) (y - 1)
  have h4 := isAlive_le_one g (x - 1) y
  have h5 := isAlive_le_one g (x + 1) y
  have h6 := isAlive_le_one g (x - 1) (y + 1)
  have h7 := isAlive_le_one g x (y + 1)
  have h8 := isAlive_le_one g (x + 1) (y + 1)
  omega

theorem neighborAliveCount_of_allDead (g : Generation) (x y : Int)
    (hdead : ∀ c ∈ g.cells, c.alive = false) : g.neighborAliveCount x y = 0 := by
  unfold Generation.neighborAliveCount
  simp only [isAlive_eq_zero_of_allDead g _ _ hdead]

theorem update_populated (g : Generation) (h : g.Populated) :
    g.updateNextGenCellsAlive.Populated := by
  unfold Generation.Populated at *
  rw [update_length, update_columns, update_rows]
  exact h

/-! Definitions supporting the claim statements. -/

/-- Spec-side model for the refinement claim (C2): a single simultaneous
update of a snapshot — every cell's new alive state is the transition rule
applied to its own prior alive state and the prior generation's neighbor
count at the cell's row-major coordinates. -/
def Generation.snapshotNext (g : Generation) : Generation :=
  { g with cells := g.cells.mapIdx (fun i c =>
      let n := g.neighborAliveCount ((i % g.columns : Nat) : Int) ((i / g.columns : Nat) : Int)
      { c with alive := transitionRule n c.alive }) }

/-- Every cell of the generation is dead. -/
def Generation.AllDead (g : Generation) : Prop :=
  ∀ c ∈ g.cells, c.alive = false

instance (g : Generation) : Decidable g.AllDead := by
  unfold Generation.AllDead; infer_instance

/-- Repeated advance: `advanceN g rands n` makes `n` advance calls, the
k-th call drawing its per-cell random seeds from `rands k`. -/
def Generation.advanceN : Generation → (Nat → Nat → Nat → Bool) → Nat → Generation
  | g, _, 0 => g
  | g, rands, Nat.succ n => Generation.advanceN (g.next (rands 0)) (fun k => rands (k + 1)) n

/-- 3×3 generation whose horizontal triplet (0,1), (1,1), (2,1) is alive
and every other cell dead. -/
def blinkerH : Generation :=
  { columns := 3, rows := 3,
    cells :=
      [ { gridX := 0, gridY := 0, alive := false, nextAlive := false },
        { gridX := 1, gridY := 0, alive := false, nextAlive := false },
        { gridX := 2, gridY := 0, alive := false, nextAlive := false },
        { gridX := 0, gridY := 1, alive := true, nextAlive := false },
        { gridX := 1, gridY := 1, alive := true, nextAlive := false },
        { gridX := 2, gridY := 1, alive := true, nextAlive := false },
        { gridX := 0, gridY := 2, alive := false, nextAlive := false },
        { gridX := 1, gridY := 2, alive := false, nextAlive := false },
        { gridX := 2, gridY := 2, alive := false, nextAlive := false } ] }

/-- Same alive pattern as `blinkerH` but with stale `nextAlive` leftovers,
as a second manually seeded instance. -/
def blinkerH2 : Generation :=
  { columns := 3, rows := 3,
    cells :=
      [ { gridX := 0, gridY := 0, alive := false, nextAlive := true },
        { gridX := 1, gridY := 0, alive := false, nextAlive := false },
        { gridX := 2, gridY := 0, alive := false, nextAlive := true },
        { gridX := 0, gridY := 1, alive := true, nextAlive := false },
        { gridX := 1, gridY := 1, alive := true, nextAlive := true },
        { gridX := 2, gridY := 1, alive := true, nextAlive := false },
        { gridX := 0, gridY := 2, alive := false, nextAlive := true },
        { gridX := 1, gridY := 2, alive := false, nextAlive := false },
        { gridX := 2, gridY := 2, alive := false, nextAlive := true } ] }

/-- 2×2 generation with every cell dead. -/
def deadTwoByTwo : Generation :=
  { columns := 2, rows := 2,
    cells :=
      [ { gridX := 0, gridY := 0, alive := false, nextAlive := false },
        { gridX := 1, gridY := 0, alive := false, nextAlive := false },
        { gridX := 0, gridY := 1, alive := false, nextAlive := false },
        { gridX := 1, gridY := 1, alive := false, nextAlive := false } ] }

/-- 2×2 generation with every cell alive. -/
def allAliveTwoByTwo : Generation :=
  { columns := 2, rows := 2,
    cells :=
      [ { gridX := 0, gridY := 0, alive := true, nextAlive := false },
        { gridX := 1, gridY := 0, alive := true, nextAlive := false },
        { gridX := 0, gridY := 1, alive := true, nextAlive := false },
        { gridX := 1, gridY := 1, alive := true, nextAlive := false } ] }

/-! Claim theorems. -/

/-- C9: advance mutates only alive/nextAlive — a transition leaves the
grid dimensions, the cell array's length, and every cell's coordinates
(at every index, hence also the element order) unchanged. -/
theorem claim_C9 (g : Generation) :
    g.updateNextGenCellsAlive.columns = g.columns ∧
    g.updateNextGenCellsAlive.rows = g.rows ∧
    g.updateNextGenCellsAlive.cells.length = g.cells.length ∧
    ∀ j : Nat,
      (g.updateNextGenCellsAlive.cells[j]?).map (fun c => (c.gridX, c.gridY)) =
        (g.cells[j]?).map (fun c => (c.gridX, c.gridY)) :=
  ⟨update_columns g, update_rows g, update_length g, update_coords g⟩

/-- C10: a falsy (absent or zero) rows option yields rows = 50, likewise
for columns; a non-zero value is taken as given; the constructor performs
no validation and returns a generation for every options object. -/
theorem claim_C10 :
    (∀ opts : GenerationOptions, opts.rows = none ∨ opts.rows = some 0 →
       (Generation.ofOptions opts).rows = 50) ∧
    (∀ opts : GenerationOptions, opts.columns = none ∨ opts.columns = some 0 →
       (Generation.ofOptions opts).columns = 50) ∧
    (∀ (opts : GenerationOptions) (n : Nat), n ≠ 0 →
       (opts.rows = some n → (Generation.ofOptions opts).rows = n) ∧
       (opts.columns = some n → (Generation.ofOptions opts).columns = n)) := by
  refine ⟨?_, ?_, ?_⟩
  · intro opts h
    rcases h with h | h <;> simp [Generation.ofOptions, h, truthy]
  · intro opts h
    rcases h with h | h <;> simp [Generation.ofOptions, h, truthy]
  · intro opts n hn
    constructor <;> intro h <;> simp [Generation.ofOptions, h, truthy, hn]

/-- C10 witness: concrete falsy and truthy options. -/
theorem claim_C10_witness :
    (Generation.ofOptions { rows := none, columns := some 0 }).rows = 50 ∧
    (Generation.ofOptions { rows := none, columns := some 0 }).columns = 50 ∧
    (Generation.ofOptions { rows := some 7, columns := some 9 }).rows = 7 :=
  ⟨claim_C10.1 _ (Or.inl rfl), claim_C10.2.1 _ (Or.inr rfl),
    (claim_C10.2.2 { rows := some 7, columns := some 9 } 7 (by decide)).1 rfl⟩

/-- C5 counterexample: construction with absent or non-positive grid
dimensions raises no configuration-validation error. With both dimensions
absent the constructor returns the default 50×50 generation object, and a
negative dimension such as -5 — truthy in JS, hence accepted by
`if (rows) this.rows = rows` — is stored verbatim rather than rejected
(wide `Int` model of the dimension assignment). -/
theorem claim_C5_counterexample :
    Generation.ofOptions { rows := none, columns := none } =
      { columns := 50, rows := 50, cells := [] } ∧
    assignedDim (some (-5)) = -5 :=
  ⟨rfl, by decide⟩

/-- C5 amended: given an options object, construction performs no
validation and cannot fail: an absent or zero dimension defaults to 50,
while any non-zero value — negative values included — is assigned
verbatim, so the stored dimensions need not be positive; the cell array
always starts empty (no partial grid is built by the constructor); and on
a populated grid all in-bounds cell lookups succeed and a transition
preserves populatedness (advance and neighbor lookups are total). -/
theorem claim_C5_amended :
    (∀ o : Option Int, o = none ∨ o = some 0 → assignedDim o = 50) ∧
    (∀ n : Int, n ≠ 0 → assignedDim (some n) = n) ∧
    (∀ opts : GenerationOptions, (Generation.ofOptions opts).cells = []) ∧
    (∀ g : Generation, g.Populated →
       (∀ x y : Nat, x < g.columns → y < g.rows →
          (g.cellAt (x : Int) (y : Int)).isSome = true) ∧
       g.updateNextGenCellsAlive.Populated) := by
  refine ⟨?_, ?_, fun _ => rfl, ?_⟩
  · intro o h
    rcases h with h | h <;> subst h <;> decide
  · intro n hn
    unfold assignedDim truthyInt
    rw [if_pos (by simpa using hn)]
    rfl
  · intro g hp
    have hp2 : g.cells.length = g.columns * g.rows := hp
    constructor
    · intro x y hx hy
      unfold Generation.cellAt
      rw [gridToIndex_toNat g x y]
      rw [List.getElem?_eq_getElem]
      · rfl
      · rw [hp2]
        exact pairIndex_lt g.columns g.rows (x, y) hx hy
    · exact update_populated g hp

/-- C5 amended witness: a zero dimension defaults to 50, a negative one
is stored verbatim, and a concrete populated grid has a successful
in-bounds lookup. -/
theorem claim_C5_amended_witness :
    assignedDim (some 0) = 50 ∧
    ((-7 : Int) ≠ 0 ∧ assignedDim (some (-7)) = -7) ∧
    blinkerH.Populated ∧
    (blinkerH.cellAt 1 1).isSome = true :=
  ⟨claim_C5_amended.1 (some 0) (Or.inr rfl),
    ⟨by decide, claim_C5_amended.2.1 (-7) (by decide)⟩,
    by decide,
    (claim_C5_amended.2.2.2 blinkerH (by decide)).1 1 1 (by decide) (by decide)⟩

/-- C7: one advance of the 3×3 horizontal blinker yields exactly the
vertical triplet (1,0), (1,1), (1,2) alive, with all coordinates in
place. -/
theorem claim_C7 (rand : Nat → Nat → Bool) :
    (blinkerH.next rand).cells.map (fun c => (c.gridX, c.gridY, c.alive)) =
      [ ((0 : Int), (0 : Int), false), (1, 0, true), (2, 0, false),
        (0, 1, false), (1, 1, true), (2, 1, false),
        (0, 2, false), (1, 2, true), (2, 2, false) ] := by
  have hnx : blinkerH.next rand = blinkerH.updateNextGenCellsAlive := by
    unfold Generation.next
    rw [if_pos (by decide : blinkerH.cells.length ≠ 0)]
  rw [hnx]
  decide

/-- C4: the cell array is empty at construction; an advance on an empty
cell array populates the grid row-major — afterwards the length is
columns*rows and the cell at index x + y*columns is exactly the cell with
coordinates (x, y) (so every in-range coordinate pair appears exactly
once); an advance on a non-empty cell array performs a transition
instead of re-populating. -/
theorem claim_C4 :
    (∀ opts : GenerationOptions, (Generation.ofOptions opts).cells = []) ∧
    (∀ (g : Generation) (rand : Nat → Nat → Bool), g.cells = [] →
       (g.next rand).cells.length = g.columns * g.rows ∧
       (∀ x y : Nat, x < g.columns → y < g.rows →
          (g.next rand).cells[x + y * g.columns]? =
            some { gridX := (x : Int), gridY := (y : Int), alive := rand x y, nextAlive := false })) ∧
    (∀ (g : Generation) (rand : Nat → Nat → Bool), g.cells ≠ [] →
       g.next rand = g.updateNextGenCellsAlive) := by
  refine ⟨fun _ => rfl, ?_, ?_⟩
  · intro g rand h0
    have hnext : g.next rand = g.createGrid rand := by
      unfold Generation.next
      rw [if_neg (by simp [h0])]
    constructor
    · rw [hnext, createGrid_length, h0]
      simp [Nat.mul_comm]
    · intro x y hx hy
      rw [hnext]
      exact createGrid_getElem?_of_empty g rand h0 x y hx hy
  · intro g rand h0
    unfold Generation.next
    rw [if_pos (by simpa using h0)]

/-- C4 witness: a 3-column, 2-row generation populated by its first
advance. -/
theorem claim_C4_witness :
    ((Generation.ofOptions { rows := some 2, columns := some 3 }).next
        (fun x y => decide (x = y))).cells.length = 6 ∧
    ((Generation.ofOptions { rows := some 2, columns := some 3 }).next
        (fun x y => decide (x = y))).cells[4]? =
      some { gridX := 1, gridY := 1, alive := true, nextAlive := false } := by
  constructor
  · exact (claim_C4.2.1 (Generation.ofOptions { rows := some 2, columns := some 3 }) _ rfl).1
  · exact (claim_C4.2.1 (Generation.ofOptions { rows := some 2, columns := some 3 }) _ rfl).2
      1 1 (by decide) (by decide)

/-- C3 (amended): the neighbor count is always at most 8 (it sums the 8
Moore positions, each contributing at most 1); any out-of-bounds position
contributes 0 through isAlive (hard, non-wrapping edges); and on an
all-alive populated grid the corner (0,0) counts exactly its 3 in-bounds
neighbors provided both dimensions are at least 2 (on smaller grids the
corner has fewer in-bounds neighbors: see the counterexample). -/
theorem claim_C3 :
    (∀ (g : Generation) (x y : Int), g.neighborAliveCount x y ≤ 8) ∧
    (∀ (g : Generation) (x y : Int),
       x < 0 ∨ x ≥ (g.columns : Int) ∨ y < 0 ∨ y ≥ (g.rows : Int) →
         g.isAlive x y = 0) ∧
    (∀ g : Generation, g.Populated → 2 ≤ g.columns → 2 ≤ g.rows →
       (∀ c ∈ g.cells, c.alive = true) →
       g.neighborAliveCount 0 0 = 3) := by
  refine ⟨neighborAliveCount_le_eight, isAlive_oob, ?_⟩
  intro g hp hc hr halive
  have hp2 : g.cells.length = g.columns * g.rows := hp
  have hic : (2 : Int) ≤ (g.columns : Int) := by exact_mod_cast hc
  have hir : (2 : Int) ≤ (g.rows : Int) := by exact_mod_cast hr
  have hprod : 2 * 2 ≤ g.columns * g.rows := Nat.mul_le_mul hc hr
  have hprod2 : g.columns * 2 ≤ g.columns * g.rows := Nat.mul_le_mul_left g.columns hr
  have i10 : (g.gridToIndex 1 0).toNat = 1 := by
    unfold Generation.gridToIndex; omega
  have i01 : (g.gridToIndex 0 1).toNat = g.columns := by
    unfold Generation.gridToIndex; omega
  have i11 : (g.gridToIndex 1 1).toNat = g.columns + 1 := by
    unfold Generation.gridToIndex; omega
  have a10 : g.isAlive 1 0 = 1 :=
    isAlive_eq_one g 1 0 (by omega) (by omega) (by omega) (by omega)
      (by rw [i10, hp2]; omega) halive
  have a01 : g.isAlive 0 1 = 1 :=
    isAlive_eq_one g 0 1 (by omega) (by omega) (by omega) (by omega)
      (by rw [i01, hp2]; omega) halive
  have a11 : g.isAlive 1 1 = 1 :=
    isAlive_eq_one g 1 1 (by omega) (by omega) (by omega) (by omega)
      (by rw [i11, hp2]; omega) halive
  unfold Generation.neighborAliveCount
  norm_num
  rw [a10, a01, a11]
  rw [isAlive_oob g (-1) (-1) (Or.inl (by norm_num)),
    isAlive_oob g 0 (-1) (Or.inr (Or.inr (Or.inl (by norm_num)))),
    isAlive_oob g 1 (-1) (Or.inr (Or.inr (Or.inl (by norm_num)))),
    isAlive_oob g (-1) 0 (Or.inl (by norm_num)),
    isAlive_oob g (-1) 1 (Or.inl (by norm_num))]

/-- C3 witness: concrete instances of the bound, the out-of-bounds rule
and the all-alive corner count on a 2×2 grid. -/
theorem claim_C3_witness :
    allAliveTwoByTwo.neighborAliveCount 0 0 ≤ 8 ∧
    allAliveTwoByTwo.isAlive (-1) 0 = 0 ∧
    allAliveTwoByTwo.neighborAliveCount 0 0 = 3 :=
  ⟨claim_C3.1 allAliveTwoByTwo 0 0,
    claim_C3.2.1 allAliveTwoByTwo (-1) 0 (Or.inl (by decide)),
    claim_C3.2.2 allAliveTwoByTwo (by decide) (by decide) (by decide) (by decide)⟩

/-- C1: on a populated grid, one advance (next on a non-empty cell array)
gives each cell the alive value dictated by its pre-transition neighbor
count: unchanged at exactly 2 neighbors, true at exactly 3, false for
every other count. -/
theorem claim_C1 (g : Generation) (rand : Nat → Nat → Bool) (x y : Nat)
    (hp : g.Populated) (hx : x < g.columns) (hy : y < g.rows) :
    ((g.next rand).cells[x + y * g.columns]?).map Cell.alive =
      (g.cells[x + y * g.columns]?).map (fun c =>
        if g.neighborAliveCount (x : Int) (y : Int) = 2 then c.alive
        else if g.neighborAliveCount (x : Int) (y : Int) = 3 then true
        else false) := by
  have hp2 : g.cells.length = g.columns * g.rows := hp
  have hcr : 0 < g.columns * g.rows := Nat.mul_pos (by omega) (by omega)
  have hnx : g.next rand = g.updateNextGenCellsAlive := by
    unfold Generation.next
    rw [if_pos (by omega)]
  rw [hnx]
  have h := update_getElem? g x y hx hy
  have e : pairIndex g.columns (x, y) = x + y * g.columns := rfl
  rw [e] at h
  rw [h]
  cases g.cells[x + y * g.columns]? with
  | none => rfl
  | some c => simp [transitionRule_eq_ite]

/-- C1 witness: the blinker's center cell, which has exactly 2 alive
neighbors before the advance and therefore keeps its alive state. -/
theorem claim_C1_witness :
    blinkerH.Populated ∧
    ((blinkerH.next (fun _ _ => false)).cells[1 + 1 * blinkerH.columns]?).map Cell.alive =
      (blinkerH.cells[1 + 1 * blinkerH.columns]?).map (fun c =>
        if blinkerH.neighborAliveCount 1 1 = 2 then c.alive
        else if blinkerH.neighborAliveCount 1 1 = 3 then true
        else false) :=
  ⟨by decide, claim_C1 blinkerH (fun _ _ => false) 1 1 (by decide) (by decide) (by decide)⟩

/-- C2: an advance is the compute phase followed by the commit phase; the
compute phase does not change any cell's alive field (no alive value is
overwritten before every nextAlive has been computed); and on a populated
grid the advance is observably equal to one simultaneous snapshot update
of the prior generation. -/
theorem claim_C2 :
    (∀ g : Generation, g.updateNextGenCellsAlive = g.computePhase.commitPhase) ∧
    (∀ (g : Generation) (j : Nat),
       (g.computePhase.cells[j]?).map Cell.alive = (g.cells[j]?).map Cell.alive) ∧
    (∀ g : Generation, g.Populated → ∀ j : Nat,
       (g.updateNextGenCellsAlive.cells[j]?).map (fun c => (c.gridX, c.gridY, c.alive)) =
         (g.snapshotNext.cells[j]?).map (fun c => (c.gridX, c.gridY, c.alive))) := by
  refine ⟨fun _ => rfl, computePhase_alive, ?_⟩
  intro g hp j
  have hp2 : g.cells.length = g.columns * g.rows := hp
  rcases Nat.lt_or_ge j g.cells.length with hj | hj
  · have hcpos : 0 < g.columns := by
      rcases Nat.eq_zero_or_pos g.columns with h | h
      · rw [h, Nat.zero_mul] at hp2; omega
      · exact h
    have hxlt : j % g.columns < g.columns := Nat.mod_lt j hcpos
    have hylt : j / g.columns < g.rows := by
      rw [Nat.div_lt_iff_lt_mul hcpos]
      have hmc := Nat.mul_comm g.columns g.rows
      omega
    have he : pairIndex g.columns (j % g.columns, j / g.columns) = j := by
      show j % g.columns + j / g.columns * g.columns = j
      rw [Nat.mul_comm]
      exact Nat.mod_add_div j g.columns
    have h1 := update_getElem? g (j % g.columns) (j / g.columns) hxlt hylt
    rw [he] at h1
    rw [h1]
    unfold Generation.snapshotNext
    rw [List.getElem?_mapIdx]
    cases g.cells[j]? with
    | none => rfl
    | some c => rfl
  · have l1 : g.updateNextGenCellsAlive.cells.length ≤ j := by
      rw [update_length]; omega
    have l2 : g.snapshotNext.cells.length ≤ j := by
      unfold Generation.snapshotNext
      simp only [List.length_mapIdx]
      omega
    rw [List.getElem?_eq_none l1, List.getElem?_eq_none l2]

/-- C2 witness: the blinker's center cell after an advance agrees with the
snapshot update. -/
theorem claim_C2_witness :
    blinkerH.Populated ∧
    (blinkerH.updateNextGenCellsAlive.cells[4]?).map (fun c => (c.gridX, c.gridY, c.alive)) =
      (blinkerH.snapshotNext.cells[4]?).map (fun c => (c.gridX, c.gridY, c.alive)) :=
  ⟨by decide, claim_C2.2.2 blinkerH (by decide) 4⟩

/-- C6: determinism — two populated generations with equal dimensions and
identical alive patterns (whatever their transient nextAlive leftovers)
transition to identical alive patterns. -/
theorem claim_C6 (g1 g2 : Generation)
    (hc : g1.columns = g2.columns) (hr : g1.rows = g2.rows)
    (hp : g1.Populated)
    (ha : g1.cells.map Cell.alive = g2.cells.map Cell.alive) :
    g1.updateNextGenCellsAlive.cells.map Cell.alive =
      g2.updateNextGenCellsAlive.cells.map Cell.alive := by
  have hp2 : g1.cells.length = g1.columns * g1.rows := hp
  have hai : ∀ i : Nat, (g1.cells[i]?).map Cell.alive = (g2.cells[i]?).map Cell.alive := by
    intro i
    have h := congrArg (fun l => l[i]?) ha
    simpa using h
  have hlen : g1.cells.length = g2.cells.length := by
    have h := congrArg List.length ha
    simpa using h
  apply List.ext_getElem?
  intro j
  rw [List.getElem?_map, List.getElem?_map]
  rcases Nat.lt_or_ge j g1.cells.length with hj | hj
  · have hcpos : 0 < g1.columns := by
      rcases Nat.eq_zero_or_pos g1.columns with h | h
      · rw [h, Nat.zero_mul] at hp2; omega
      · exact h
    have hxlt : j % g1.columns < g1.columns := Nat.mod_lt j hcpos
    have hylt : j / g1.columns < g1.rows := by
      rw [Nat.div_lt_iff_lt_mul hcpos]
      have hmc := Nat.mul_comm g1.columns g1.rows
      omega
    have he : pairIndex g1.columns (j % g1.columns, j / g1.columns) = j := by
      show j % g1.columns + j / g1.columns * g1.columns = j
      rw [Nat.mul_comm]
      exact Nat.mod_add_div j g1.columns
    have he2 : pairIndex g2.columns (j % g1.columns, j / g1.columns) = j := by
      show j % g1.columns + j / g1.columns * g2.columns = j
      rw [← hc, Nat.mul_comm]
      exact Nat.mod_add_div j g1.columns
    have h1 := update_getElem? g1 (j % g1.columns) (j / g1.columns) hxlt hylt
    have h2 := update_getElem? g2 (j % g1.columns) (j / g1.columns) (hc ▸ hxlt) (hr ▸ hylt)
    rw [he] at h1
    rw [he2] at h2
    rw [h1, h2]
    rw [neighborAliveCount_congr g1 g2 hc hr hai]
    have hj2 := hai j
    cases hg1 : g1.cells[j]? <;> cases hg2 : g2.cells[j]? <;>
      rw [hg1, hg2] at hj2 <;> simp_all
  · have l1 : g1.updateNextGenCellsAlive.cells.length ≤ j := by
      rw [update_length]; omega
    have l2 : g2.updateNextGenCellsAlive.cells.length ≤ j := by
      rw [update_length]; omega
    rw [List.getElem?_eq_none l1, List.getElem?_eq_none l2]

/-- C6 witness: two 3×3 blinker instances with identical alive patterns
but different stale nextAlive leftovers step to the same pattern. -/
theorem claim_C6_witness :
    blinkerH.Populated ∧
    blinkerH.cells.map Cell.alive = blinkerH2.cells.map Cell.alive ∧
    blinkerH.updateNextGenCellsAlive.cells.map Cell.alive =
      blinkerH2.updateNextGenCellsAlive.cells.map Cell.alive :=
  ⟨by decide, by decide, claim_C6 blinkerH blinkerH2 rfl rfl (by decide) (by decide)⟩

/-- One advance call preserves populatedness and all-dead-ness. -/
theorem next_allDead (g : Generation) (rand : Nat → Nat → Bool)
    (hp : g.Populated) (hd : g.AllDead) :
    (g.next rand).Populated ∧ (g.next rand).AllDead := by
  have hp2 : g.cells.length = g.columns * g.rows := hp
  by_cases h0 : g.cells.length = 0
  · have hnx : g.next rand = g.createGrid rand := by
      unfold Generation.next
      rw [if_neg (by omega)]
    have hrc : g.rows * g.columns = 0 := by
      have hmc := Nat.mul_comm g.columns g.rows
      omega
    have hlen0 : (g.next rand).cells.length = 0 := by
      rw [hnx, createGrid_length]
      omega
    constructor
    · show (g.next rand).cells.length = (g.next rand).columns * (g.next rand).rows
      rw [hnx, createGrid_length]
      show g.cells.length + g.rows * g.columns = g.columns * g.rows
      omega
    · intro c hcmem
      rw [List.length_eq_zero.mp hlen0] at hcmem
      cases hcmem
  · have hnx : g.next rand = g.updateNextGenCellsAlive := by
      unfold Generation.next
      rw [if_pos h0]
    rw [hnx]
    refine ⟨update_populated g hp, ?_⟩
    intro cl hcl
    obtain ⟨j, hj⟩ := List.mem_iff_getElem?.mp hcl
    have hjlt : j < g.cells.length := by
      have hlt := (List.getElem?_eq_some_iff.mp hj).1
      rw [update_length] at hlt
      exact hlt
    have hcpos : 0 < g.columns := by
      rcases Nat.eq_zero_or_pos g.columns with h | h
      · rw [h, Nat.zero_mul] at hp2; omega
      · exact h
    have hxlt : j % g.columns < g.columns := Nat.mod_lt j hcpos
    have hylt : j / g.columns < g.rows := by
      rw [Nat.div_lt_iff_lt_mul hcpos]
      have hmc := Nat.mul_comm g.columns g.rows
      omega
    have he : pairIndex g.columns (j % g.columns, j / g.columns) = j := by
      show j % g.columns + j / g.columns * g.columns = j
      rw [Nat.mul_comm]
      exact Nat.mod_add_div j g.columns
    have h1 := update_getElem? g (j % g.columns) (j / g.columns) hxlt hylt
    rw [he] at h1
    rw [h1] at hj
    cases hgc : g.cells[j]? with
    | none => rw [hgc] at hj; simp at hj
    | some c =>
      rw [hgc] at hj
      simp only [Option.map_some'] at hj
      have hcl2 := Option.some.inj hj
      rw [← hcl2]
      show transitionRule (g.neighborAliveCount (((j % g.columns : Nat)) : Int) (((j / g.columns : Nat)) : Int)) c.alive = false
      rw [neighborAliveCount_of_allDead g _ _ hd]
      rfl

/-- C8: a populated all-dead grid of any dimensions stays all-dead after
any number of advance calls. -/
theorem claim_C8 (g : Generation) (rands : Nat → Nat → Nat → Bool) (n : Nat)
    (hp : g.Populated) (hd : g.AllDead) :
    (g.advanceN rands n).AllDead := by
  induction n generalizing g rands with
  | zero => exact hd
  | succ n ih =>
    have h := next_allDead g (rands 0) hp hd
    exact ih (g.next (rands 0)) (fun k => rands (k + 1)) h.1 h.2

/-- C8 witness: a 2×2 all-dead grid stays all-dead over three advances. -/
theorem claim_C8_witness :
    deadTwoByTwo.Populated ∧ deadTwoByTwo.AllDead ∧
    (deadTwoByTwo.advanceN (fun _ _ _ => true) 3).AllDead :=
  ⟨by decide, by decide, claim_C8 deadTwoByTwo (fun _ _ _ => true) 3 (by decide) (by decide)⟩

/-- 1×1 generation whose single cell is alive. -/
def allAliveOneByOne : Generation :=
  { columns := 1, rows := 1,
    cells := [ { gridX := 0, gridY := 0, alive := true, nextAlive := false } ] }

/-- C3 counterexample: on the 1×1 grid with all cells alive, the corner
(0,0) has no in-bounds neighbors at all, so its neighbor count is 0, not
3 — the claimed corner count of 3 requires both dimensions to be at
least 2. -/
theorem claim_C3_counterexample :
    allAliveOneByOne.Populated ∧
    (∀ c ∈ allAliveOneByOne.cells, c.alive = true) ∧
    allAliveOneByOne.neighborAliveCount 0 0 = 0 := by
  refine ⟨by decide, by decide, by decide⟩
